import Mathlib

/-!
Verification development for the `re` package of mygrep-go: a shallow
embedding of the regular-expression parser, NFA compiler and backtracking
matcher, together with theorems settling the specified properties.

Modelling conventions:
* Go strings are modelled as `List Char` (sequences of Unicode code
  points); positions advance one decoded rune at a time, so a byte offset
  step of one rune's width corresponds to one list element.
* `utf8.DecodeRuneInString` on the empty string yields `(RuneError, 0)`;
  this zero-width decode is modelled exactly.
* Go maps written once per key are modelled as association lists where a
  write prepends and a lookup takes the first hit (last write wins).
* The NFA's mutable pointer graph is modelled as an arena (`List state`)
  addressed by stable indices; pointer mutation becomes index-addressed
  update, and `nil` results become `Option`/`Except` values.
* Runtime panics (index out of range, nil pointer dereference) are
  explicit result values, distinct from returned `error` values.
* The backtracking matcher can genuinely diverge, so it takes a fuel
  parameter; exhausting fuel yields a distinguished `timeout` value that
  the Go program has no counterpart for.  A result other than `timeout`
  is the value the Go program returns (with enough stack).
-/

namespace Re

/-- Beginning-of-string sentinel, `BOS = '\x02'` in the source. -/
def BOS : Char := '\x02'

/-- End-of-string sentinel, `EOS = '\x03'` in the source. -/
def EOS : Char := '\x03'

/-- Go's `utf8.RuneError` (U+FFFD), produced when decoding an empty string. -/
def RuneError : Char := '�'

/-- Models `utf8.DecodeRuneInString`: on the empty string it returns
`(RuneError, 0)` (a zero-width decode); otherwise the first rune with
width one (one list element stands for one decoded rune). -/
def decodeRuneInString : List Char → Char × Nat
  | [] => (RuneError, 0)
  | c :: _ => (c, 1)

/-- Models Go's `unicode.IsPrint` on the code points this development
exercises: the printable ASCII range U+0020..U+007E plus `RuneError`
(U+FFFD, category So), on all of which Go returns `true`, and the control
characters (in particular the sentinels `'\x02'`, `'\x03'` and `'\n'`),
on which Go returns `false`. -/
def unicodeIsPrint (c : Char) : Bool :=
  (0x20 ≤ c.toNat && c.toNat ≤ 0x7E) || c = RuneError

/-- The token vocabulary of the parser, mirroring the `token`
implementations in the source (`literalToken`, `digitToken`, `wordToken`,
`positiveSetToken`, `negativeSetToken`, `beginningOfStringToken`,
`endOfStringToken`, `plusToken`, `starToken`, `optionalToken`,
`wildcardToken`, `groupToken`). -/
inductive token where
  | literalToken (char : Char)
  | digitToken
  | wordToken
  | positiveSetToken (setItems : List Char)
  | negativeSetToken (setItems : List Char)
  | beginningOfStringToken
  | endOfStringToken
  | plusToken (payload : token)
  | starToken (payload : token)
  | optionalToken (payload : token)
  | wildcardToken
  | groupToken (payload : List (List token))
deriving Repr

/-- Outcomes of the parsing phase other than success: a returned `error`
value, a Go runtime panic, or exhaustion of the fuel this embedding
threads through the parse loop (never hit with the fuel `Match` supplies). -/
inductive PErr where
  | err (msg : String)
  | panicked (msg : String)
  | outOfFuel
deriving Repr, DecidableEq

/-- The parser state.  `regexp` holds the unread suffix of the pattern
(the source keeps the full string plus a byte position `pos`; this field
is `regexp[pos:]`), `tokens` the accumulated token list, `done` the flag
set by `parseClosingGroup` to stop the enclosing parse loop. -/
structure parser where
  regexp : List Char
  tokens : List token
  done : Bool
deriving Repr

/-- Models `strings.ContainsRune` on the unread suffix. -/
def containsRune : List Char → Char → Bool
  | [], _ => false
  | c :: rest, r => if c = r then true else containsRune rest r

/-- The zero value of Go's `rune` type, used by the set scanners as the
"no previous character" sentinel (`var previousChar rune`). -/
def nulChar : Char := Char.ofNat 0

/-- Expands an inclusive code-point range, modelling
`for ch := rangeStart; ch <= rangeEnd; ch++`. -/
def rangeList (lo hi : Char) : List Char :=
  (List.range' lo.toNat (hi.toNat + 1 - lo.toNat)).map Char.ofNat

/-- The scanning loop shared verbatim (up to the set name in messages) by
`parsePositiveSet` and `parseNegativeSet`: reads runes until the closing
`]`, expanding `a-b` ranges, treating a `-` right before `]` as a literal
hyphen, and rejecting reversed ranges.  Returns the collected set items
and the input remaining after the `]`. -/
def scanSet (kind : String) : List Char → Char → List Char →
    Except PErr (List Char × List Char)
  | [], _, _ => .error (.err ("unexpected EOF while parsing " ++ kind ++ " set"))
  | c :: rest, previousChar, setItems =>
    if c = ']' then .ok (setItems, rest)
    else if c = '-' && previousChar ≠ nulChar then
      match rest with
      | [] => .error (.err ("unexpected EOF while parsing range in " ++ kind ++ " set"))
      | e :: rest2 =>
        if e = ']' then .ok (setItems ++ [previousChar, '-'], rest2)
        else if e.toNat < previousChar.toNat then
          .error (.err s!"invalid range: {previousChar}-{e}")
        else scanSet kind rest2 nulChar (setItems ++ rangeList previousChar e)
    else scanSet kind rest c (setItems ++ [c])

/-- Models `parser.parseLiteral`. -/
def parseLiteral (p : parser) : Except PErr parser :=
  match p.regexp with
  | [] => .error (.err "unexpected EOF")
  | c :: rest => .ok { p with regexp := rest, tokens := p.tokens ++ [.literalToken c] }

/-- Models `parser.parseMetaChar`: consumes the backslash and the escaped
character; `\d`, `\w` and `\\` are the supported escapes.  When the
pattern ends right after the backslash, the second `next()` yields Go's
`EOF` rune `-1`, which `fmt.Errorf("...%c", ...)` renders as U+FFFD. -/
def parseMetaChar (p : parser) : Except PErr parser :=
  match p.regexp with
  | [] => .error (.err "unexpected EOF while parsing meta character")
  | _ :: rest =>
    match rest with
    | [] => .error (.err ("unsupported meta character: \\" ++ String.mk [RuneError]))
    | c :: rest2 =>
      if c = 'd' then .ok { p with regexp := rest2, tokens := p.tokens ++ [.digitToken] }
      else if c = 'w' then .ok { p with regexp := rest2, tokens := p.tokens ++ [.wordToken] }
      else if c = '\\' then
        .ok { p with regexp := rest2, tokens := p.tokens ++ [.literalToken '\\'] }
      else .error (.err s!"unsupported meta character: \\{c}")

/-- Models `parser.parsePositiveSet`: expects `[`, requires a visible `]`
in the remainder, scans the set items, and rejects an empty set. -/
def parsePositiveSet (p : parser) : Except PErr parser :=
  match p.regexp with
  | '[' :: rest =>
    if containsRune rest ']' then
      match scanSet "positive" rest nulChar [] with
      | .error e => .error e
      | .ok (setItems, rest2) =>
        if setItems.isEmpty then .error (.err "empty positive set")
        else .ok { p with regexp := rest2,
                          tokens := p.tokens ++ [.positiveSetToken setItems] }
    else .error (.err "unclosed '[' in positive set")
  | _ => .error (.err "expected '[' at the beginning of positive set")

/-- Models `parser.parseNegativeSet`: expects `[^`, requires a visible
`]` in the remainder, scans the set items, and rejects an empty set. -/
def parseNegativeSet (p : parser) : Except PErr parser :=
  match p.regexp with
  | '[' :: '^' :: rest =>
    if containsRune rest ']' then
      match scanSet "negative" rest nulChar [] with
      | .error e => .error e
      | .ok (setItems, rest2) =>
        if setItems.isEmpty then .error (.err "empty negative set")
        else .ok { p with regexp := rest2,
                          tokens := p.tokens ++ [.negativeSetToken setItems] }
    else .error (.err "unclosed '[' in negative set")
  | _ => .error (.err "expected '[^' at the beginning of negative set")

/-- Models `parser.parseBeginningOfString`. -/
def parseBeginningOfString (p : parser) : Except PErr parser :=
  match p.regexp with
  | '^' :: rest =>
    .ok { p with regexp := rest, tokens := p.tokens ++ [.beginningOfStringToken] }
  | _ => .error (.err "expected '^' at the beginning of string")

/-- Models `parser.parseEndOfString`. -/
def parseEndOfString (p : parser) : Except PErr parser :=
  match p.regexp with
  | '$' :: rest =>
    .ok { p with regexp := rest, tokens := p.tokens ++ [.endOfStringToken] }
  | _ => .error (.err "expected '$' at the end of string")

/-- Models `parser.parsePlus`: pops the previously parsed token and
re-wraps it in a `plusToken`. -/
def parsePlus (p : parser) : Except PErr parser :=
  match p.regexp with
  | '+' :: rest =>
    match p.tokens.getLast? with
    | none => .error (.err "no character to apply '+' to")
    | some lastToken =>
      .ok { p with regexp := rest,
                   tokens := p.tokens.dropLast ++ [.plusToken lastToken] }
  | _ => .error (.err "expected '+' after character")

/-- Models `parser.parseStar`: pops the previously parsed token and
re-wraps it in a `starToken`. -/
def parseStar (p : parser) : Except PErr parser :=
  match p.regexp with
  | '*' :: rest =>
    match p.tokens.getLast? with
    | none => .error (.err "no character to apply '*' to")
    | some lastToken =>
      .ok { p with regexp := rest,
                   tokens := p.tokens.dropLast ++ [.starToken lastToken] }
  | _ => .error (.err "expected '*' after character")

/-- Models `parser.parseOptional`: pops the previously parsed token and
re-wraps it in an `optionalToken`. -/
def parseOptional (p : parser) : Except PErr parser :=
  match p.regexp with
  | '?' :: rest =>
    match p.tokens.getLast? with
    | none => .error (.err "no character to apply '?' to")
    | some lastToken =>
      .ok { p with regexp := rest,
                   tokens := p.tokens.dropLast ++ [.optionalToken lastToken] }
  | _ => .error (.err "expected '?' after character")

/-- Models `parser.parseWildcard`. -/
def parseWildcard (p : parser) : Except PErr parser :=
  match p.regexp with
  | '.' :: rest => .ok { p with regexp := rest, tokens := p.tokens ++ [.wildcardToken] }
  | _ => .error (.err "expected '.'")

/-- Models `parser.parseOr`: consumes `|`, then reads `p.tokens[0]` —
which PANICS with an index-out-of-range runtime error when the token
list is empty — requires it to be a group token, and folds the tokens
after it into the group's branch list as one finished branch. -/
def parseOr (p : parser) : Except PErr parser :=
  match p.regexp with
  | '|' :: rest =>
    match p.tokens with
    | [] => .error (.panicked "runtime error: index out of range [0] with length 0")
    | t0 :: previousTokens =>
      match t0 with
      | .groupToken payload =>
        .ok { p with regexp := rest,
                     tokens := [.groupToken (payload ++ [previousTokens])] }
      | _ => .error (.err "expected group before '|'")
  | _ => .error (.err "expected '|'")

/-- Models `parser.parseClosingGroup`: like `parseOr` (including the
panic on an empty token list) but also sets `done`, stopping the
enclosing parse loop. -/
def parseClosingGroup (p : parser) : Except PErr parser :=
  match p.regexp with
  | ')' :: rest =>
    match p.tokens with
    | [] => .error (.panicked "runtime error: index out of range [0] with length 0")
    | t0 :: previousTokens =>
      match t0 with
      | .groupToken payload =>
        .ok { regexp := rest,
              tokens := [.groupToken (payload ++ [previousTokens])],
              done := true }
      | _ => .error (.err "expected group before ')'")
  | _ => .error (.err "expected ')'")

mutual

/-- Models `parser.parse`: the loop `for p.pos < len(p.regexp) && !p.done`
running `parseRe` each iteration.  Fuel only bounds the loop; `Match`
supplies more than the pattern length, which always suffices since every
successful `parseRe` consumes at least one rune. -/
def parse : Nat → parser → Except PErr parser
  | 0, _ => .error .outOfFuel
  | fuel + 1, p =>
    if p.regexp.isEmpty || p.done then .ok p
    else
      match parseRe fuel p with
      | .error e => .error e
      | .ok p2 => parse fuel p2

/-- Models `parser.parseRe`: single-character dispatch on the next rune
(with the two-character lookahead distinguishing `[^` from `[`). -/
def parseRe : Nat → parser → Except PErr parser
  | 0, _ => .error .outOfFuel
  | fuel + 1, p =>
    match p.regexp.head? with
    | none => .ok p
    | some c =>
      if c = '(' then parseGroup fuel p
      else if c = ')' then parseClosingGroup p
      else if c = '|' then parseOr p
      else if c = '[' then
        if p.regexp.tail.head? = some '^' then parseNegativeSet p
        else parsePositiveSet p
      else if c = '+' then parsePlus p
      else if c = '*' then parseStar p
      else if c = '?' then parseOptional p
      else if c = '.' then parseWildcard p
      else if c = '^' then parseBeginningOfString p
      else if c = '$' then parseEndOfString p
      else if c = '\\' then parseMetaChar p
      else parseLiteral p

/-- Models `parser.parseGroup`: consumes `(`, runs a child parser seeded
with a fresh empty-payload group token over the remainder, then adopts
the child's final position and appends its tokens. -/
def parseGroup : Nat → parser → Except PErr parser
  | 0, _ => .error .outOfFuel
  | fuel + 1, p =>
    match p.regexp with
    | '(' :: rest =>
      match parse fuel { regexp := rest, tokens := [.groupToken []], done := false } with
      | .error e => .error e
      | .ok child =>
        .ok { p with regexp := child.regexp, tokens := p.tokens ++ child.tokens }
    | _ => .error (.err "expected '(' at the beginning of group")

end

/-- A state of the NFA, mirroring the source's `state` struct: `edges`
(character-keyed transitions), `control` (sentinel-keyed transitions for
anchors), `anyChar` (the single "any character" fallback edge — always a
one-element slice in the source), `epsilon` (no-input successors, order
preserved) and the `isFinal` flag.  Successors are arena indices. -/
structure state where
  edges : List (Char × Nat) := []
  control : List (Char × Nat) := []
  anyChar : Option Nat := none
  epsilon : List Nat := []
  isFinal : Bool := false
deriving Repr

/-- The arena of NFA states; a Go `*state` becomes an index into it. -/
abbrev Arena := List state

/-- Models a Go map lookup where each write prepended its entry: the
first hit is the most recent write (map overwrite semantics). -/
def mapLookup : List (Char × Nat) → Char → Option Nat
  | [], _ => none
  | (c, j) :: rest, r => if c = r then some j else mapLookup rest r

/-- Index-addressed read of an arena state (never out of range for
indices produced by the compiler). -/
def getState : Arena → Nat → state
  | [], _ => {}
  | s :: _, 0 => s
  | _ :: rest, n + 1 => getState rest n

/-- Index-addressed update of an arena state, modelling mutation through
a Go pointer. -/
def setState (f : state → state) : Arena → Nat → Arena
  | [], _ => []
  | s :: rest, 0 => f s :: rest
  | s :: rest, n + 1 => s :: setState f rest n

/-- Models `st.epsilon = append(st.epsilon, j)` on the state at index `i`. -/
def addEpsilon (a : Arena) (i j : Nat) : Arena :=
  setState (fun st => { st with epsilon := st.epsilon ++ [j] }) a i

/-- Models `st.isFinal = b` on the state at index `i`. -/
def setFinal (a : Arena) (i : Nat) (b : Bool) : Arena :=
  setState (fun st => { st with isFinal := b }) a i

/-- An NFA fragment, mirroring the source's `nfa` struct: the entry
state and the designated exit state (`start` and `end`). -/
structure nfa where
  start : Nat
  endIdx : Nat
deriving Repr, DecidableEq

/-- Go's panic message for a nil pointer dereference. -/
def nilDerefMsg : String :=
  "runtime error: invalid memory address or nil pointer dereference"

mutual

/-- Models the `toNfa` method of each token type, with states allocated
at the end of the arena (allocation order follows the source).  The
group case reproduces `groupToken.toNfa`: a fresh entry and exit state,
then for each branch the concatenation loop, an epsilon edge from the
group entry into the branch entry — which DEREFERENCES A NIL `*nfa` and
panics when the branch has zero tokens — an epsilon edge from the branch
exit to the group exit, and clearing of the branch exit's final flag. -/
def toNfa : token → Arena → Except String (Arena × nfa)
  | .literalToken c, a =>
    let s := a.length
    .ok (a ++ [{ edges := [(c, s + 1)] }, { isFinal := true }], ⟨s, s + 1⟩)
  | .digitToken, a =>
    let s := a.length
    .ok (a ++ [{ edges := (rangeList '0' '9').foldl (fun l r => (r, s + 1) :: l) [] },
               { isFinal := true }], ⟨s, s + 1⟩)
  | .wordToken, a =>
    let s := a.length
    .ok (a ++ [{ edges := (rangeList 'a' 'z' ++ rangeList 'A' 'Z' ++
                           rangeList '0' '9' ++ ['_']).foldl
                  (fun l r => (r, s + 1) :: l) [] },
               { isFinal := true }], ⟨s, s + 1⟩)
  | .positiveSetToken setItems, a =>
    let s := a.length
    .ok (a ++ [{ edges := setItems.foldl (fun l r => (r, s + 1) :: l) [] },
               { isFinal := true }], ⟨s, s + 1⟩)
  | .negativeSetToken setItems, a =>
    let s := a.length
    .ok (a ++ [{ edges := setItems.foldl (fun l r => (r, s + 2) :: l) [],
                 anyChar := some (s + 1) },
               { isFinal := true }, {}], ⟨s, s + 1⟩)
  | .beginningOfStringToken, a =>
    let s := a.length
    .ok (a ++ [{ control := [(BOS, s + 1)] }, { isFinal := true }], ⟨s, s + 1⟩)
  | .endOfStringToken, a =>
    let s := a.length
    .ok (a ++ [{ control := [(EOS, s + 1)] }, { isFinal := true }], ⟨s, s + 1⟩)
  | .plusToken payload, a =>
    match toNfa payload a with
    | .error m => .error m
    | .ok (a, n) => .ok (addEpsilon a n.endIdx n.start, n)
  | .starToken payload, a =>
    match toNfa payload a with
    | .error m => .error m
    | .ok (a, n) =>
      .ok (addEpsilon (addEpsilon a n.endIdx n.start) n.start n.endIdx, n)
  | .optionalToken payload, a =>
    match toNfa payload a with
    | .error m => .error m
    | .ok (a, n) => .ok (addEpsilon a n.start n.endIdx, n)
  | .wildcardToken, a =>
    let s := a.length
    .ok (a ++ [{ anyChar := some (s + 1) }, { isFinal := true }], ⟨s, s + 1⟩)
  | .groupToken payload, a =>
    let s := a.length
    wireBranches payload s (s + 1) (a ++ [{ epsilon := [] }, { isFinal := true }])

/-- The per-branch wiring loop of `groupToken.toNfa`. -/
def wireBranches : List (List token) → Nat → Nat → Arena → Except String (Arena × nfa)
  | [], s, e, a => .ok (a, ⟨s, e⟩)
  | tokens :: rest, s, e, a =>
    match concatTokens tokens a none with
    | .error m => .error m
    | .ok (_, none) => .error nilDerefMsg
    | .ok (a, some n) =>
      wireBranches rest s e
        (setFinal (addEpsilon (addEpsilon a s n.start) n.endIdx e) n.endIdx false)

/-- The fragment-concatenation loop shared by `buildNfa` and the branch
loop of `groupToken.toNfa`: epsilon-link the running fragment's exit to
the next fragment's entry, clear the subsumed exit's final flag, and
adopt the next fragment's exit.  Yields `none` for an empty token list
(the `var nfa *nfa` left nil). -/
def concatTokens : List token → Arena → Option nfa → Except String (Arena × Option nfa)
  | [], a, acc => .ok (a, acc)
  | t :: ts, a, acc =>
    match toNfa t a with
    | .error m => .error m
    | .ok (a, nextNfa) =>
      match acc with
      | none => concatTokens ts a (some nextNfa)
      | some cur =>
        concatTokens ts (setFinal (addEpsilon a cur.endIdx nextNfa.start) cur.endIdx false)
          (some ⟨cur.start, nextNfa.endIdx⟩)

end

/-- Models `buildNfa`: concatenate the fragments of the top-level token
sequence; an empty sequence leaves the `*nfa` nil (`none`). -/
def buildNfa (tokens : List token) (a : Arena) : Except String (Arena × Option nfa) :=
  concatTokens tokens a none

/-- The epsilon-successor loop at the end of `checkMatch`:
`for _, st := range state.epsilon { if checkMatch(st, s) { return true } }`.
`cm` is the recursive call at the already-decremented fuel; a `none`
(fuel exhausted) anywhere aborts the whole search. -/
def epsLoop (cm : Nat → Option Bool) : List Nat → Option Bool
  | [] => some false
  | j :: rest =>
    match cm j with
    | none => none
    | some true => some true
    | some false => epsLoop cm rest

/-- Models the recursive `checkMatch` closure inside `nfa.matches`:
succeed on a final state; otherwise decode one rune and, if it is
printable, try the exact character edge, else the `anyChar` fallback
(never both — the source uses `else if`); if it is not printable, try
only the `control` edges; finally explore the epsilon successors.  Fuel
decreases on every recursive call; `none` means fuel ran out, i.e. the
search has not returned within that call depth. -/
def checkMatch (a : Arena) : Nat → Nat → List Char → Option Bool
  | 0, _, _ => none
  | fuel + 1, i, s =>
    let st := getState a i
    if st.isFinal then some true
    else
      let rw := decodeRuneInString s
      let consumed : Option Bool :=
        if unicodeIsPrint rw.1 then
          match mapLookup st.edges rw.1 with
          | some j => checkMatch a fuel j (s.drop rw.2)
          | none =>
            match st.anyChar with
            | some j => checkMatch a fuel j (s.drop rw.2)
            | none => some false
        else
          match mapLookup st.control rw.1 with
          | some j => checkMatch a fuel j (s.drop rw.2)
          | none => some false
      match consumed with
      | none => none
      | some true => some true
      | some false => epsLoop (fun j => checkMatch a fuel j s) st.epsilon

/-- Models `nfa.matches` (named `nfaMatches` since `matches` is reserved in Lean): run `checkMatch` from the start state. -/
def nfaMatches (a : Arena) (n : nfa) (fuel : Nat) (s : List Char) : Option Bool :=
  checkMatch a fuel n.start s

/-- The newline replacement inside `stringSource`:
`strings.ReplaceAll(input, "\n", string(EOS)+string(BOS))`. -/
def replaceNewlines : List Char → List Char
  | [] => []
  | c :: rest =>
    if c = '\n' then EOS :: BOS :: replaceNewlines rest
    else c :: replaceNewlines rest

/-- Models `stringSource`: replace newlines by EOS-BOS pairs, prepend
BOS, append EOS. -/
def stringSource (input : List Char) : List Char :=
  BOS :: replaceNewlines input ++ [EOS]

/-- The offset-advancing loop at the end of `Match`: probe the matcher
at every start offset of the prepared line until it succeeds or the
line is exhausted. -/
def matchLoop (a : Arena) (n : nfa) (fuel : Nat) : List Char → Option Bool
  | [] => some false
  | c :: rest =>
    match nfaMatches a n fuel (c :: rest) with
    | none => none
    | some true => some true
    | some false => matchLoop a n fuel rest

/-- The observable outcome of a `Match` call: `ok b` models the Go
return `(b, nil)`, `err m` models `(false, error(m))`, `panicked m` a
runtime panic with message `m`, and `timeout` fuel exhaustion in the
backtracking search (the Go program is still running at that depth). -/
inductive MatchResult where
  | ok (matched : Bool)
  | err (msg : String)
  | panicked (msg : String)
  | timeout
deriving Repr, DecidableEq

/-- Models the exported `Match`: the empty pattern short-circuits to
true; otherwise parse (with ample parser fuel), build the NFA (a nil
`*nfa` from an empty token list would be dereferenced by `nfa.matches`),
and probe every start offset of the sentinel-annotated line.  `fuel`
bounds only the backtracking search depth. -/
def Match (fuel : Nat) (line pattern : List Char) : MatchResult :=
  if pattern.isEmpty then .ok true
  else
    match parse (4 * pattern.length + 4) { regexp := pattern, tokens := [], done := false } with
    | .error (.err m) => .err m
    | .error (.panicked m) => .panicked m
    | .error .outOfFuel => .timeout
    | .ok p =>
      match buildNfa p.tokens [] with
      | .error m => .panicked m
      | .ok (_, none) => .panicked nilDerefMsg
      | .ok (a, some n) =>
        match matchLoop a n fuel (stringSource line) with
        | none => .timeout
        | some b => .ok b

/-- Go's panic message for indexing an empty slice at position 0, as
raised by `p.tokens[0]` in `parseOr` and `parseClosingGroup`. -/
def iorMsg : String := "runtime error: index out of range [0] with length 0"

/-- The arena `buildNfa` produces for the pattern `a*b` (tokens
`[starToken (literalToken a), literalToken b]`): the star fragment's
entry 0 and exit 1 carry the mutual epsilon cycle 0 → 1 → 0 introduced
by `starToken.toNfa`, and concatenation chained exit 1 to the `b`
fragment's entry 2 and cleared its final flag. -/
def starArena : Arena :=
  [{ edges := [('a', 1)], epsilon := [1] },
   { epsilon := [0, 2] },
   { edges := [('b', 3)] },
   { isFinal := true }]

/-- The arena `buildNfa` produces for the pattern `[^a-c]`: entry 0 has
character edges for each excluded set item (the scanner collects
`[a, a, b, c]`, the literal before the range plus the expanded range, and
each map write prepends) to the unreachable dead-end state 2, plus the
any-character fallback to the final exit 1. -/
def negArena : Arena :=
  [{ edges := [('c', 2), ('b', 2), ('a', 2), ('a', 2)], anyChar := some 1 },
   { isFinal := true },
   {}]

/-- C1: the claim that `Match` terminates on every valid pattern is
violated by the code: the pattern `a*b` parses without error, but
`starToken.toNfa` wires a zero-width epsilon cycle between the star
fragment's entry and exit, and on the line `""` (prepared to
`[BOS, EOS]`, whose first rune no character edge consumes) `checkMatch`
re-enters that cycle without consuming input, so the search exceeds
every recursion depth: the fueled matcher yields `timeout` for every
fuel, i.e. the Go program never returns. -/
theorem Match_star_concat_diverges (fuel : Nat) :
    Match fuel [] ['a', '*', 'b'] = .timeout := by
  have key : ∀ f, checkMatch starArena f 0 [BOS, EOS] = none ∧
      checkMatch starArena f 1 [BOS, EOS] = none := by
    intro f
    induction f with
    | zero => exact ⟨rfl, rfl⟩
    | succ f ih =>
      have hB : unicodeIsPrint BOS = false := rfl
      constructor
      · rw [checkMatch]
        simp only [getState, decodeRuneInString, epsLoop, ih.2, hB, mapLookup,
          Bool.false_eq_true, if_false, reduceCtorEq]
      · rw [checkMatch]
        simp only [getState, decodeRuneInString, epsLoop, ih.1, hB, mapLookup,
          Bool.false_eq_true, if_false, reduceCtorEq]
  have h := (key fuel).1
  show (match matchLoop starArena ⟨0, 3⟩ fuel [BOS, EOS] with
        | none => MatchResult.timeout
        | some b => MatchResult.ok b) = .timeout
  rw [matchLoop, nfaMatches, h]

/-- Witness for C1 at a concrete fuel. -/
theorem Match_star_concat_diverges_spot : Match 37 [] ['a', '*', 'b'] = .timeout :=
  Match_star_concat_diverges 37

/-- C2: the claim that every pattern with an unmatched `|` or `)`
returns a non-nil parse error is violated by the code on the claim's own
example patterns: for `|a` and `)` the guard in `parseOr` and
`parseClosingGroup` indexes `p.tokens[0]` on an empty token list and
panics before any error can be returned, and `(a)|b` parses without
error (the `|` adopts the already-closed group and appends an empty
branch to it) and then panics in `groupToken.toNfa` on that empty
branch; no `(false, error)` pair is produced for any line. -/
theorem Match_unmatched_delimiter_panics (S : List Char) (fuel : Nat) :
    Match fuel S ['|', 'a'] = .panicked iorMsg ∧
    Match fuel S [')'] = .panicked iorMsg ∧
    Match fuel S ['(', 'a', ')', '|', 'b'] = .panicked nilDerefMsg :=
  ⟨rfl, rfl, rfl⟩

/-- Witness for C2 at a concrete line and fuel. -/
theorem Match_unmatched_delimiter_panics_spot :
    Match 5 ['x'] ['|', 'a'] = .panicked iorMsg ∧
    Match 5 ['x'] [')'] = .panicked iorMsg ∧
    Match 5 ['x'] ['(', 'a', ')', '|', 'b'] = .panicked nilDerefMsg :=
  Match_unmatched_delimiter_panics ['x'] 5

/-- C3: a group with an empty alternation branch (patterns `()` and
`(|a)`) passes the parser without error, and `groupToken.toNfa` then
dereferences the nil `*nfa` left by the empty branch's concatenation
loop, so `Match` panics instead of returning a `(bool, error)` pair,
for every line and every search depth. -/
theorem Match_empty_branch_panics (S : List Char) (fuel : Nat) :
    (parse 12 { regexp := ['(', ')'], tokens := [], done := false }).isOk = true ∧
    (parse 20 { regexp := ['(', '|', 'a', ')'], tokens := [], done := false }).isOk = true ∧
    Match fuel S ['(', ')'] = .panicked nilDerefMsg ∧
    Match fuel S ['(', '|', 'a', ')'] = .panicked nilDerefMsg :=
  ⟨rfl, rfl, rfl, rfl⟩

/-- Witness for C3 at a concrete line and fuel. -/
theorem Match_empty_branch_panics_spot :
    Match 5 ['x'] ['(', ')'] = .panicked nilDerefMsg :=
  (Match_empty_branch_panics ['x'] 5).2.2.1

/-- C4: the empty pattern short-circuits before parsing or compiling:
`Match` returns `(true, nil)` for every line (and trivially at every
fuel, since the matcher never runs). -/
theorem Match_empty_pattern (S : List Char) (fuel : Nat) :
    Match fuel S [] = .ok true := rfl

/-- Witness for C4 at a concrete line and fuel. -/
theorem Match_empty_pattern_spot : Match 5 ['a'] [] = .ok true :=
  Match_empty_pattern ['a'] 5

/-- C5: the anchor examples: `^log` matches `log file` but not
`error log` (the BOS control edge is only available at the injected
begin-of-string sentinel), and `dog$` matches `dog` but not `dogs`
(the EOS control edge only at the end-of-string sentinel). -/
theorem Match_anchor_examples :
    Match 100 "log file".toList "^log".toList = .ok true ∧
    Match 100 "error log".toList "^log".toList = .ok false ∧
    Match 100 "dog".toList "dog$".toList = .ok true ∧
    Match 100 "dogs".toList "dog$".toList = .ok false :=
  ⟨rfl, rfl, rfl, rfl⟩

/-- C6: the alternation examples: `a (cat|dog)` matches `a cat` and
`a dog` (each via one branch of the group) and fails on `a cow`. -/
theorem Match_alternation_examples :
    Match 100 "a cat".toList "a (cat|dog)".toList = .ok true ∧
    Match 100 "a dog".toList "a (cat|dog)".toList = .ok true ∧
    Match 100 "a cow".toList "a (cat|dog)".toList = .ok false :=
  ⟨rfl, rfl, rfl⟩

/-- C7: negative-set semantics for `[^a-c]`: every printable character
other than the members `a`, `b`, `c` matches as a single-character line
(the fallback edge consumes it), while each member character fails
(its edge leads to the dead-end state, and the fallback is not tried). -/
theorem Match_negative_set_semantics (c : Char) (hpr : unicodeIsPrint c = true)
    (ha : c ≠ 'a') (hb : c ≠ 'b') (hc : c ≠ 'c') :
    Match 100 [c] "[^a-c]".toList = .ok true ∧
    Match 100 ['a'] "[^a-c]".toList = .ok false ∧
    Match 100 ['b'] "[^a-c]".toList = .ok false ∧
    Match 100 ['c'] "[^a-c]".toList = .ok false := by
  refine ⟨?_, rfl, rfl, rfl⟩
  have hnl : c ≠ '\n' := by
    intro e; rw [e] at hpr; exact absurd hpr (by decide)
  have hfin : checkMatch negArena 99 1 [EOS] = some true := rfl
  have h0 : checkMatch negArena 100 0 [BOS, c, EOS] = some false := rfl
  have h1 : checkMatch negArena (99 + 1) 0 [c, EOS] = some true := by
    rw [checkMatch]
    simp [getState, decodeRuneInString, mapLookup, epsLoop, hpr,
      Ne.symm ha, Ne.symm hb, Ne.symm hc, hfin]
  have hm : stringSource [c] = [BOS, c, EOS] := by
    simp [stringSource, replaceNewlines, hnl]
  show (match matchLoop negArena ⟨0, 1⟩ 100 (stringSource [c]) with
        | none => MatchResult.timeout
        | some b => MatchResult.ok b) = .ok true
  rw [hm]
  simp only [matchLoop, nfaMatches, h0, h1]

/-- Witness for C7 at the concrete non-member `d`. -/
theorem Match_negative_set_semantics_spot :
    Match 100 ['d'] "[^a-c]".toList = .ok true :=
  (Match_negative_set_semantics 'd' (by decide) (by decide) (by decide) (by decide)).1

/-- C8: a reversed range is a parse-time "invalid range" error: for any
range endpoints with start code point greater than end code point (the
endpoints constrained only away from the delimiter roles `]`, `^`), both
the positive set `[a-b]` and the negative set `[^a-b]` make `Match`
return the error for every line, at every fuel — no boolean match result
is produced. -/
theorem Match_reversed_range_error (a b : Char) (S : List Char) (fuel : Nat)
    (ha1 : a ≠ ']') (ha2 : a ≠ '^') (hb1 : b ≠ ']') (hlt : b.toNat < a.toNat) :
    Match fuel S ['[', a, '-', b, ']'] = .err s!"invalid range: {a}-{b}" ∧
    Match fuel S ['[', '^', a, '-', b, ']'] = .err s!"invalid range: {a}-{b}" := by
  have hnul : a ≠ nulChar := by
    intro e; rw [e] at hlt; exact absurd hlt (by simp [nulChar])
  have hscanPos : scanSet "positive" [a, '-', b, ']'] nulChar [] =
      .error (.err s!"invalid range: {a}-{b}") := by
    rw [scanSet, if_neg ha1]
    simp only [decide_not, decide_eq_true_eq]
    rw [if_neg (by simp)]
    rw [scanSet]
    simp [hb1, hlt, hnul]
  have hscanNeg : scanSet "negative" [a, '-', b, ']'] nulChar [] =
      .error (.err s!"invalid range: {a}-{b}") := by
    rw [scanSet, if_neg ha1]
    simp only [decide_not, decide_eq_true_eq]
    rw [if_neg (by simp)]
    rw [scanSet]
    simp [hb1, hlt, hnul]
  constructor
  · unfold Match
    simp only [List.length_cons, List.length_nil]
    rw [show 4 * (0 + 1 + 1 + 1 + 1 + 1) + 4 = 23 + 1 from rfl]
    rw [parse]
    rw [show (23 : Nat) = 22 + 1 from rfl, parseRe]
    simp [parsePositiveSet, containsRune, ha1, ha2, hb1, hscanPos]
  · unfold Match
    simp only [List.length_cons, List.length_nil]
    rw [show 4 * (0 + 1 + 1 + 1 + 1 + 1 + 1) + 4 = 27 + 1 from rfl]
    rw [parse]
    rw [show (27 : Nat) = 26 + 1 from rfl, parseRe]
    simp [parseNegativeSet, containsRune, ha1, hb1, hscanNeg]

/-- Witness for C8 at the spec's example `[c-a]` / `[^c-a]` on line `a`. -/
theorem Match_reversed_range_error_spot :
    Match 5 ['a'] "[c-a]".toList = .err "invalid range: c-a" ∧
    Match 5 ['a'] "[^c-a]".toList = .err "invalid range: c-a" :=
  Match_reversed_range_error 'c' 'a' ['a'] 5 (by decide) (by decide) (by decide) (by decide)

/-- C9: a `-` immediately before the closing `]` is a literal hyphen:
`[a-]` matches `-` and `a` but not `b`, and `[^a-]` rejects `-`. -/
theorem Match_trailing_hyphen_examples :
    Match 100 "-".toList "[a-]".toList = .ok true ∧
    Match 100 "a".toList "[a-]".toList = .ok true ∧
    Match 100 "b".toList "[a-]".toList = .ok false ∧
    Match 100 "-".toList "[^a-]".toList = .ok false :=
  ⟨rfl, rfl, rfl, rfl⟩

/-- C10: decoding the empty remainder yields `(RuneError, 0)`,
`RuneError` is classified printable, and consequently a trailing
wildcard takes its fallback edge with zero width past the end of the
line: `Match("a", "a$.")` returns `(true, nil)`. -/
theorem Match_wildcard_zero_width :
    decodeRuneInString [] = (RuneError, 0) ∧
    unicodeIsPrint RuneError = true ∧
    Match 100 "a".toList "a$.".toList = .ok true :=
  ⟨rfl, rfl, rfl⟩

end Re
